import Mathlib

/-!
Shallow embedding of the khrental-webhook event reconciliation engine.

Sources embedded here:
- src/services/signatureWebhookService.js : determineSignatoryType,
  the signer roster merge, and processSignatureEvent (the main entry point).
- src/services/supabaseClient.js : insertWebhookEvent (degraded write path)
  and markWebhookEventProcessed (the processed-flag PATCH body).
- src/server.js (handleEviaSignWebhook, lines 530-569) : UUID validation and
  reference normalization (strip non-hex characters, re-segment 8-4-4-4-12).
- src/unnamed/part_006 (documentStorageService.js, saveDocument steps 4-5) :
  the document-URL patches written to the webhook event and the agreement.

Database reads and writes are modelled by explicit parameters (a lookup
function for the agreement query, environment values for store outcomes).
JavaScript truthiness of the optional string and number fields is modelled
by the truthy / truthyInt helpers.
-/

namespace KhWebhook

/-- JavaScript truthiness for an optional string field: undefined and the
empty string are falsy. -/
def truthy : Option String → Bool
  | some s => s != ""
  | none => false

/-- JavaScript truthiness for an optional numeric field: undefined and 0 are
falsy. -/
def truthyInt : Option Int → Bool
  | some n => n != 0
  | none => false

/-- Lowercase mapping for a single character, as String.prototype.toLowerCase
acts on ASCII letters. -/
def toLowerChar (c : Char) : Char :=
  if 'A' ≤ c && c ≤ 'Z' then Char.ofNat (c.toNat + 32) else c

/-- toLowerCase on a whole string. -/
def lowerStr (s : String) : String := ⟨s.data.map toLowerChar⟩

/-- Whether pat is a leading segment of l; helper for substring search. -/
def leadsList : List Char → List Char → Bool
  | [], _ => true
  | _ :: _, [] => false
  | p :: ps, c :: cs => p == c && leadsList ps cs

/-- Whether pat occurs contiguously inside l; mirrors String.prototype.includes. -/
def hasSubList (pat : List Char) : List Char → Bool
  | [] => leadsList pat []
  | c :: cs => leadsList pat (c :: cs) || hasSubList pat cs

/-- String.prototype.includes from the source, on the character lists. -/
def containsSub (s pat : String) : Bool := hasSubList pat.data s.data

/-- Characters kept by the replace of /[^a-f0-9]/gi in server.js: hex digits
of either case. -/
def isHexChar (c : Char) : Bool :=
  ('0' ≤ c && c ≤ '9') || ('a' ≤ c && c ≤ 'f') || ('A' ≤ c && c ≤ 'F')

/-- Consume exactly n hex characters from l, returning the remainder. -/
def hexTake : Nat → List Char → Option (List Char)
  | 0, l => some l
  | _ + 1, [] => none
  | n + 1, c :: l => if isHexChar c then hexTake n l else none

/-- Consume one dash. -/
def dashTake : List Char → Option (List Char)
  | c :: l => if c = '-' then some l else none
  | [] => none

/-- Consume the version character [1-5] of the UUID regex in server.js. -/
def versionTake : List Char → Option (List Char)
  | c :: l => if '1' ≤ c ∧ c ≤ '5' then some l else none
  | [] => none

/-- Consume the variant character [89ab] (case-insensitive) of the UUID regex. -/
def variantTake : List Char → Option (List Char)
  | c :: l =>
    if c = '8' ∨ c = '9' ∨ c = 'a' ∨ c = 'b' ∨ c = 'A' ∨ c = 'B' then some l
    else none
  | [] => none

/-- Remainder after matching the full UUID pattern
8 hex, dash, 4 hex, dash, [1-5] + 3 hex, dash, [89ab] + 3 hex, dash, 12 hex. -/
def uuidRest (l : List Char) : Option (List Char) :=
  ((((((((((hexTake 8 l).bind dashTake).bind (hexTake 4)).bind dashTake).bind
    versionTake).bind (hexTake 3)).bind dashTake).bind variantTake).bind
    (hexTake 3)).bind dashTake).bind (hexTake 12)

/-- The isUUID test of server.js handleEviaSignWebhook (the anchored regex
with the version and variant character classes, case-insensitive). -/
def isUUID (s : String) : Bool := uuidRest s.data == some []

/-- Strip every non-hex character, as replace of /[^a-f0-9]/gi with the empty
string. -/
def stripNonHex (s : String) : String := ⟨s.data.filter isHexChar⟩

/-- Re-segment 32 characters into the canonical 8-4-4-4-12 grouping, as the
substr concatenation in server.js lines 557-562. -/
def formatUUID (h : List Char) : List Char :=
  h.take 8 ++ '-' :: (h.drop 8).take 4 ++ '-' :: (h.drop 12).take 4 ++
    '-' :: (h.drop 16).take 4 ++ '-' :: (h.drop 20).take 12

/-- Reference normalization of handleEviaSignWebhook (server.js lines
541-574): keep a valid UUID; otherwise strip non-hex characters and, when
exactly 32 remain, re-segment; otherwise keep the original value with only a
logged warning. -/
def normalizeReference : Option String → Option String
  | none => none
  | some r =>
    if isUUID r then some r
    else
      let normalized := r.data.filter isHexChar
      if normalized.length = 32 then some ⟨formatUUID normalized⟩ else some r

/-- One attached document of the inbound payload. -/
structure DocumentItem where
  DocumentContent : String
  DocumentName : Option String
deriving DecidableEq

/-- The parsed webhook payload handed to the engine by the ingress layer. -/
structure WebhookData where
  RequestId : Option String
  EventId : Option Int
  EventDescription : Option String := none
  UserName : Option String := none
  Email : Option String := none
  EventTime : Option String := none
  Subject : Option String := none
  Documents : Option (List DocumentItem) := none
deriving DecidableEq

/-- One signer roster entry, as built by processSignatureEvent; reference
stands for a previously recorded field that the merge never overwrites. -/
structure Signatory where
  name : String
  email : Option String
  type : Option String
  status : String
  signedAt : String
  reference : Option String
deriving DecidableEq

/-- The spread merge of an existing roster entry with the new one: every
field of the new entry wins, fields the new entry does not carry survive. -/
def mergeSignatory (existing nu : Signatory) : Signatory :=
  { name := nu.name, email := nu.email, type := nu.type, status := nu.status,
    signedAt := nu.signedAt, reference := existing.reference }

/-- The findIndex-then-update-or-push roster merge of processSignatureEvent
(signatureWebhookService.js lines 356-368): the first entry with the same
email is merged in place, otherwise the new entry is appended. -/
def upsertSignatory : List Signatory → Signatory → List Signatory
  | [], nu => [nu]
  | s :: rest, nu =>
    if s.email = nu.email then mergeSignatory s nu :: rest
    else s :: upsertSignatory rest nu

/-- Best-effort signer role classifier of signatureWebhookService.js. -/
def determineSignatoryType (email name : Option String) : Option String :=
  if !truthy email && !truthy name then none
  else
    let emailLower := lowerStr (email.getD "")
    let nameLower := lowerStr (name.getD "")
    if containsSub emailLower "landlord" || containsSub emailLower "owner" ||
        containsSub emailLower "admin" || containsSub nameLower "landlord" ||
        containsSub nameLower "owner" || containsSub nameLower "admin" then
      some "landlord"
    else if containsSub emailLower "tenant" || containsSub emailLower "renter" ||
        containsSub emailLower "rentee" || containsSub nameLower "tenant" ||
        containsSub nameLower "renter" || containsSub nameLower "rentee" then
      some "tenant"
    else some "tenant"

/-- The part of the email before the first at sign, as split on the at sign
and taking element 0. -/
def emailLocalPart (s : String) : String := ⟨s.data.takeWhile (fun c => c != '@')⟩

/-- Collapse each maximal run of whitespace into a single underscore, as the
replace of whitespace-run matches with an underscore in the source. -/
def collapseWs : List Char → Bool → List Char
  | [], _ => []
  | c :: cs, inRun =>
    if c.isWhitespace then
      if inRun then collapseWs cs true else '_' :: collapseWs cs true
    else c :: collapseWs cs false

/-- The signatoryName.replace of whitespace runs with underscores. -/
def underscoreName (s : String) : String := ⟨collapseWs s.data false⟩

/-- Signer display name: prefer UserName, else the email local part
(signatureWebhookService.js line 335). -/
def deriveSignatoryName (w : WebhookData) : String :=
  if truthy w.UserName then w.UserName.getD ""
  else emailLocalPart (w.Email.getD "")

/-- The newSignatory object built for a SignatoryCompleted event. -/
def newSignatoryOf (w : WebhookData) (now : String) : Signatory :=
  { name := if truthy w.UserName then w.UserName.getD "" else "Unknown",
    email := w.Email,
    type := determineSignatoryType w.Email w.UserName,
    status := "completed",
    signedAt := if truthy w.EventTime then w.EventTime.getD "" else now,
    reference := none }

/-- The agreement row as far as processSignatureEvent reads it. -/
structure Agreement where
  id : String
  status : Option String
  signatories_status : List Signatory
deriving DecidableEq

/-- The updateData object written to the agreements table; absent keys are
none. -/
structure UpdateData where
  updatedat : String
  status : Option String := none
  signature_status : Option String := none
  signature_sent_at : Option String := none
  signature_completed_at : Option String := none
  signeddate : Option String := none
  signatories_status : Option (List Signatory) := none
  signed_document_url : Option String := none
  pdfurl : Option String := none
  signatureurl : Option String := none
deriving DecidableEq

/-- Outcome of the Supabase storage upload plus getPublicUrl sequence for a
signed document. -/
inductive UploadOutcome
  | ok (publicUrl : String)
  | failed (msg : String)
  | noUrl
deriving DecidableEq

/-- Outcome of saveSignedDocument: the local file URL on success, the error
message otherwise (that function catches its own exceptions). -/
inductive SaveOutcome
  | ok (url : String)
  | err (msg : String)
deriving DecidableEq

/-- External outcomes consumed by one processSignatureEvent run: the
timestamp, the saveSignedDocument outcome, the storage upload outcome and
the agreements-table update outcome. -/
structure ProcEnv where
  now : String
  save : SaveOutcome
  upload : UploadOutcome
  updateError : Option String
deriving DecidableEq

/-- The structured result object returned by processSignatureEvent; keys the
returned object does not carry are none. -/
structure ProcResult where
  success : Bool
  recordingSuccess : Option Bool := none
  agreementProcessed : Option Bool := none
  agreementId : Option String := none
  updates : Option UpdateData := none
  error : Option String := none
  message : Option String := none
deriving DecidableEq

/-- One full run: the returned result, the update attempted on the
agreements table (none when no update statement was issued), and the warning
messages logged from the artifact section. -/
structure ProcOutcome where
  result : ProcResult
  updateAttempt : Option (String × UpdateData)
  warnings : List String
deriving DecidableEq

/-- Final step of a processed event: issue the agreements-table update and
shape the result, as signatureWebhookService.js lines 469-509. -/
def finishUpdate (agreement : Agreement) (ud : UpdateData) (env : ProcEnv)
    (warnings : List String) : ProcOutcome :=
  match env.updateError with
  | some msg =>
    ⟨{ success := true, recordingSuccess := some true,
       agreementProcessed := some false, error := some msg },
      some (agreement.id, ud), warnings⟩
  | none =>
    ⟨{ success := true, recordingSuccess := some true,
       agreementProcessed := some true, agreementId := some agreement.id,
       updates := some ud },
      some (agreement.id, ud), warnings⟩

/-- The switch over the numeric event id for a located agreement
(signatureWebhookService.js lines 302-467). -/
def processFound (w : WebhookData) (agreement : Agreement) (eventId : Int)
    (env : ProcEnv) : ProcOutcome :=
  let base : UpdateData := { updatedat := env.now }
  if eventId = 1 then
    finishUpdate agreement
      { base with
        status := some "pending_activation",
        signature_status := some "send_for_signature",
        signature_sent_at := some env.now } env []
  else if eventId = 2 then
    if !truthy w.UserName && w.Email = none then
      -- reading split of an undefined Email throws; the outer catch turns
      -- it into the recorded-but-unprocessed result
      ⟨{ success := true, recordingSuccess := some true,
         agreementProcessed := some false,
         error := some "Cannot read properties of undefined" }, none, []⟩
    else
      finishUpdate agreement
        { base with
          signature_status :=
            some ("signed_by_" ++ underscoreName (deriveSignatoryName w)),
          status := some "pending_activation",
          signatories_status :=
            some (upsertSignatory agreement.signatories_status
              (newSignatoryOf w env.now)) } env []
  else if eventId = 3 then
    let ud0 : UpdateData :=
      { base with
        status := some "active",
        signature_status := some "signing_complete",
        signature_completed_at := some env.now,
        signeddate := some env.now }
    match w.Documents with
    | some (_ :: _) =>
      match env.save with
      | .err msg =>
        finishUpdate agreement ud0 env
          ["Failed to save signed document: " ++ msg]
      | .ok localUrl =>
        let ud1 := { ud0 with signed_document_url := some localUrl }
        match env.upload with
        | .ok publicUrl =>
          finishUpdate agreement
            { ud1 with
              signed_document_url := some publicUrl,
              pdfurl := some publicUrl,
              signatureurl := some publicUrl } env []
        | .failed msg =>
          finishUpdate agreement ud1 env
            ["Error uploading to Supabase storage: " ++ msg]
        | .noUrl =>
          finishUpdate agreement ud1 env
            ["Warning: No public URL returned from Supabase"]
    | _ => finishUpdate agreement ud0 env []
  else if eventId = 5 then
    finishUpdate agreement
      { base with
        status := some "rejected",
        signature_status := some "rejected" } env []
  else
    ⟨{ success := true, recordingSuccess := some true,
       agreementProcessed := some false,
       message := some "Webhook received but event type not recognized for processing" },
      none, []⟩

/-- Main entry point of the engine (signatureWebhookService.js lines
261-524): validate the payload, look up the agreement, dispatch on the event
id and write back. The agreement lookup is a parameter standing for
findAgreementByEviaReference. -/
def processSignatureEvent (webhookData : Option WebhookData)
    (lookup : String → Option Agreement) (env : ProcEnv) : ProcOutcome :=
  match webhookData with
  | none => ⟨{ success := false, error := some "Invalid webhook data" }, none, []⟩
  | some w =>
    if !truthy w.RequestId || !truthyInt w.EventId then
      ⟨{ success := false, error := some "Invalid webhook data" }, none, []⟩
    else
      match lookup (w.RequestId.getD "") with
      | none =>
        ⟨{ success := true, recordingSuccess := some true,
           agreementProcessed := some false,
           error := some "No matching agreement found" }, none, []⟩
      | some agreement => processFound w agreement (w.EventId.getD 0) env

/-- One row of the webhook_events store as insertWebhookEvent returns it. -/
structure InsertData where
  id : String
  request_id : Option String := none
  virtual : Bool := false
deriving DecidableEq

/-- Result object of insertWebhookEvent. -/
structure InsertResult where
  success : Bool
  data : Option InsertData := none
  warning : Option String := none
  error : Option String := none
deriving DecidableEq

/-- Outcome of the primary direct-HTTP insert of insertWebhookEvent. -/
inductive PrimaryOutcome
  | ok (row : InsertData)
  | httpError (msg : String)
  | exn (msg : String)
deriving DecidableEq

/-- Outcome of the fallback Supabase-client insert. -/
inductive FallbackOutcome
  | ok (row : InsertData)
  | err (msg : String)
deriving DecidableEq

/-- External outcomes consumed by one insertWebhookEvent run. -/
structure InsertEnv where
  nowMs : String
  freshUUID : String
  primary : PrimaryOutcome
  fallback : FallbackOutcome
deriving DecidableEq

/-- Strip leading and trailing whitespace, as String.prototype.trim. -/
def trimStr (s : String) : String :=
  ⟨((s.data.dropWhile Char.isWhitespace).reverse.dropWhile
      Char.isWhitespace).reverse⟩

/-- RequestId handling of insertWebhookEvent (supabaseClient.js lines
167-189): a value failing the UUID regex is replaced outright by a freshly
generated UUID; a valid one is trimmed and lowercased. -/
def insertValidRequestId (rid : Option String) (fresh : String) : Option String :=
  match rid with
  | some r => if isUUID r then some (lowerStr (trimStr r)) else some fresh
  | none => some fresh

/-- insertWebhookEvent of supabaseClient.js (lines 155-294): primary
direct-HTTP write, Supabase-client fallback, and virtual records when both
fail; every outcome is returned as a value. The outermost catch of the
source is unreachable here because the inner catch already covers the write
sequence. -/
def insertWebhookEvent (eventData : Option WebhookData) (env : InsertEnv) :
    InsertResult :=
  match eventData with
  | none => { success := false, error := some "No event data provided" }
  | some ed =>
    let validRequestId := insertValidRequestId ed.RequestId env.freshUUID
    match env.primary with
    | .ok row => { success := true, data := some row }
    | .httpError _ =>
      match env.fallback with
      | .ok row => { success := true, data := some row }
      | .err _ =>
        { success := true,
          data := some
            { id := "local-" ++ env.nowMs, request_id := validRequestId,
              virtual := true },
          warning := some "Created virtual record due to database issues" }
    | .exn _ =>
      { success := true,
        data := some
          { id := "error-" ++ env.nowMs, request_id := validRequestId,
            virtual := true },
        warning := some "Created virtual record due to insert error" }

/-- Partial update body sent by a PATCH to one webhook_events row; absent
keys are none. The document columns exist on the row (documentStorageService
writes them) but a given PATCH carries only some of them. -/
structure WebhookEventPatch where
  processed : Option Bool := none
  updatedat : Option String := none
  document_url : Option String := none
  document_path : Option String := none
deriving DecidableEq

/-- Result object of markWebhookEventProcessed. -/
structure MarkResult where
  success : Bool
  warning : Option String := none
deriving DecidableEq

/-- Outcome of the PATCH attempts of markWebhookEventProcessed. -/
inductive MarkOutcome
  | httpOk
  | clientOk
  | clientErr (msg : String)
  | exn (msg : String)
deriving DecidableEq

/-- markWebhookEventProcessed of supabaseClient.js (lines 320-404): the
update body carries only the processed flag and updatedat; every write
failure still returns success with a warning. The second component is the
update body sent to the webhook_events row. -/
def markWebhookEventProcessed (eventId : Option String) (now : String)
    (env : MarkOutcome) : MarkResult × Option WebhookEventPatch :=
  if !truthy eventId then
    ({ success := false, warning := some "Missing event ID" }, none)
  else
    let patch : WebhookEventPatch :=
      { processed := some true, updatedat := some now }
    match env with
    | .httpOk => ({ success := true }, some patch)
    | .clientOk => ({ success := true }, some patch)
    | .clientErr _ =>
      ({ success := true,
         warning :=
           some "Could not mark as processed in database, but webhook was processed" },
        some patch)
    | .exn _ =>
      ({ success := true,
         warning := some "Exception updating database, but webhook was processed" },
        some patch)

/-- Update body written to the agreements row by saveDocument step 5
(documentStorageService.js): all three artifact URL columns receive the same
public URL. -/
structure AgreementUrlPatch where
  signed_document_url : Option String := none
  pdfurl : Option String := none
  signatureurl : Option String := none
  updatedat : Option String := none
deriving DecidableEq

/-- saveDocument step 4 (documentStorageService.js lines 152-161): the
webhook_events row receives the public URL and the storage path. -/
def saveDocumentWebhookPatch (publicUrl storagePath now : String) :
    WebhookEventPatch :=
  { updatedat := some now, document_url := some publicUrl,
    document_path := some storagePath }

/-- saveDocument step 5 (documentStorageService.js lines 174-185): the
agreements row receives the same public URL in all three locator columns. -/
def saveDocumentAgreementPatch (publicUrl now : String) : AgreementUrlPatch :=
  { signed_document_url := some publicUrl, pdfurl := some publicUrl,
    signatureurl := some publicUrl, updatedat := some now }

/-- Number of roster entries carrying the given email key. -/
def emailCount (l : List Signatory) (e : Option String) : Nat :=
  l.countP (fun s => s.email == e)



/-- The email column of a merged entry is the email of the new entry. -/
lemma mergeSignatory_email (s nu : Signatory) :
    (mergeSignatory s nu).email = nu.email := rfl

/-- Merging an entry with itself changes nothing. -/
lemma mergeSignatory_self (nu : Signatory) : mergeSignatory nu nu = nu := rfl

/-- Re-merging the same new entry is absorbed. -/
lemma mergeSignatory_merge (s nu : Signatory) :
    mergeSignatory (mergeSignatory s nu) nu = mergeSignatory s nu := rfl

/-- Applying the same roster merge twice gives the same roster as applying
it once. -/
lemma upsertSignatory_idem (l : List Signatory) (nu : Signatory) :
    upsertSignatory (upsertSignatory l nu) nu = upsertSignatory l nu := by
  induction l with
  | nil => simp [upsertSignatory, mergeSignatory_self]
  | cons s rest ih =>
    by_cases h : s.email = nu.email
    · simp [upsertSignatory, h, mergeSignatory_email, mergeSignatory_merge]
    · simp [upsertSignatory, h, ih]

/-- The merge leaves the count of every other email key unchanged. -/
lemma emailCount_upsert_other (l : List Signatory) (nu : Signatory)
    (e : Option String) (hne : e ≠ nu.email) :
    emailCount (upsertSignatory l nu) e = emailCount l e := by
  have hb : (nu.email == e) = false :=
    beq_eq_false_iff_ne.mpr (fun hc => hne hc.symm)
  induction l with
  | nil =>
    simp [upsertSignatory, emailCount, List.countP_cons, hb]
  | cons s rest ih =>
    by_cases h : s.email = nu.email
    · simp [upsertSignatory, h, emailCount, List.countP_cons,
        mergeSignatory_email, hb]
    · simp only [upsertSignatory, if_neg h, emailCount, List.countP_cons]
      simp only [emailCount] at ih
      omega

/-- After a merge the new entry email key appears exactly once, provided it
appeared at most once before. -/
lemma emailCount_upsert_self (l : List Signatory) (nu : Signatory)
    (h : emailCount l nu.email ≤ 1) :
    emailCount (upsertSignatory l nu) nu.email = 1 := by
  induction l with
  | nil => simp [upsertSignatory, emailCount, List.countP_cons]
  | cons s rest ih =>
    by_cases hs : s.email = nu.email
    · have hbs : (s.email == nu.email) = true := beq_iff_eq.mpr hs
      simp only [emailCount, List.countP_cons, hbs, if_true] at h
      simp only [upsertSignatory, if_pos hs, emailCount, List.countP_cons,
        mergeSignatory_email, beq_self_eq_true, if_true]
      omega
    · have hbs : (s.email == nu.email) = false := beq_eq_false_iff_ne.mpr hs
      simp only [emailCount, List.countP_cons, hbs, if_false] at h
      simp only [upsertSignatory, if_neg hs, emailCount, List.countP_cons, hbs,
        if_false]
      have := ih (by simpa [emailCount] using h)
      simpa [emailCount] using this

/-- A merge for an email key not yet on the roster is a plain append. -/
lemma upsertSignatory_append (l : List Signatory) (nu : Signatory)
    (h : nu.email ∉ l.map Signatory.email) :
    upsertSignatory l nu = l ++ [nu] := by
  induction l with
  | nil => simp [upsertSignatory]
  | cons s rest ih =>
    simp only [List.map_cons, List.mem_cons] at h
    push_neg at h
    have hne : ¬ s.email = nu.email := fun hc => h.1 hc.symm
    simp [upsertSignatory, hne, ih h.2]

/-- C3: the roster merge is idempotent and keyed by email: applying the same
signer-completed merge twice yields exactly one entry for that signer email
(given the at-most-one invariant on the input), the merge preserves the
at-most-one-entry-per-email invariant for every key, re-application changes
nothing, and a genuinely new signer is appended at the end, preserving
first-appearance order. -/
theorem roster_merge_idempotent_unique (roster : List Signatory) (nu : Signatory) :
    (emailCount roster nu.email ≤ 1 →
      emailCount (upsertSignatory (upsertSignatory roster nu) nu) nu.email = 1) ∧
    (∀ e, emailCount roster e ≤ 1 → emailCount (upsertSignatory roster nu) e ≤ 1) ∧
    upsertSignatory (upsertSignatory roster nu) nu = upsertSignatory roster nu ∧
    (nu.email ∉ roster.map Signatory.email →
      upsertSignatory roster nu = roster ++ [nu]) := by
  refine ⟨?_, ?_, upsertSignatory_idem roster nu, upsertSignatory_append roster nu⟩
  · intro h
    exact emailCount_upsert_self _ nu
      (le_of_eq (emailCount_upsert_self roster nu h))
  · intro e he
    by_cases hx : e = nu.email
    · subst hx
      exact le_of_eq (emailCount_upsert_self roster nu he)
    · exact le_of_eq ((emailCount_upsert_other roster nu e hx).trans rfl) |>.trans he

/-- Concrete signer used by the C3 witness. -/
def sigC3 : Signatory :=
  { name := "Jane Doe", email := some "jane@x.com", type := some "tenant",
    status := "completed", signedAt := "2024-05-01T10:00:00Z", reference := none }

/-- Concrete roster used by the C3 witness. -/
def rosterC3 : List Signatory :=
  [{ name := "Bob Landlord", email := some "bob@x.com", type := some "landlord",
     status := "completed", signedAt := "2024-04-30T09:00:00Z",
     reference := some "R1" }]

/-- Witness for C3 at a concrete roster and signer. -/
theorem roster_merge_idempotent_unique_witness :
    emailCount rosterC3 sigC3.email ≤ 1 ∧
    emailCount (upsertSignatory (upsertSignatory rosterC3 sigC3) sigC3)
      sigC3.email = 1 :=
  ⟨by decide, (roster_merge_idempotent_unique rosterC3 sigC3).1 (by decide)⟩

/-- C10: a null payload, or one lacking a truthy RequestId or truthy
EventId, is rejected with the invalid-data failure result before any lookup
or update happens: the outcome carries no update attempt and is the same for
every lookup function and environment. -/
theorem invalid_payload_rejected_before_lookup (wd : Option WebhookData)
    (f g : String → Option Agreement) (env env2 : ProcEnv)
    (h : wd = none ∨ ∃ w, wd = some w ∧
      (truthy w.RequestId = false ∨ truthyInt w.EventId = false)) :
    processSignatureEvent wd f env =
      ⟨{ success := false, error := some "Invalid webhook data" }, none, []⟩ ∧
    processSignatureEvent wd f env = processSignatureEvent wd g env2 := by
  have key : ∀ (f2 : String → Option Agreement) (e2 : ProcEnv),
      processSignatureEvent wd f2 e2 =
        ⟨{ success := false, error := some "Invalid webhook data" }, none, []⟩ := by
    intro f2 e2
    rcases h with h | ⟨w, rfl, h | h⟩
    · subst h; rfl
    · simp [processSignatureEvent, h]
    · simp [processSignatureEvent, h]
  exact ⟨key f env, (key f env).trans (key g env2).symm⟩

/-- Witness for C10 at a concrete payload missing the EventId. -/
theorem invalid_payload_rejected_before_lookup_witness :
    processSignatureEvent
      (some { RequestId := some "req-9", EventId := none })
      (fun _ => none)
      { now := "N", save := .err "e", upload := .noUrl, updateError := none } =
      ⟨{ success := false, error := some "Invalid webhook data" }, none, []⟩ :=
  (invalid_payload_rejected_before_lookup
    (some { RequestId := some "req-9", EventId := none })
    (fun _ => none) (fun _ => none)
    { now := "N", save := .err "e", upload := .noUrl, updateError := none }
    { now := "N", save := .err "e", upload := .noUrl, updateError := none }
    (Or.inr ⟨_, rfl, Or.inr (by decide)⟩)).1

/-- C5: when the reference matches no agreement, the outcome is a partial
success: success true, recordingSuccess true, agreementProcessed false, no
update attempted, only an error message carried along. -/
theorem not_found_is_partial_success (w : WebhookData)
    (lookup : String → Option Agreement) (env : ProcEnv)
    (hreq : truthy w.RequestId = true) (hev : truthyInt w.EventId = true)
    (hmiss : lookup (w.RequestId.getD "") = none) :
    processSignatureEvent (some w) lookup env =
      ⟨{ success := true, recordingSuccess := some true,
         agreementProcessed := some false,
         error := some "No matching agreement found" }, none, []⟩ := by
  simp [processSignatureEvent, hreq, hev, hmiss]

/-- Witness for C5 at a concrete payload and an empty store. -/
theorem not_found_is_partial_success_witness :
    processSignatureEvent
      (some { RequestId := some "req-5", EventId := some 2 })
      (fun _ => none)
      { now := "N", save := .err "e", upload := .noUrl, updateError := none } =
      ⟨{ success := true, recordingSuccess := some true,
         agreementProcessed := some false,
         error := some "No matching agreement found" }, none, []⟩ :=
  not_found_is_partial_success
    { RequestId := some "req-5", EventId := some 2 }
    (fun _ => none)
    { now := "N", save := .err "e", upload := .noUrl, updateError := none }
    (by decide) (by decide) rfl

/-- C8 counterexample: EventId 0 is a numeric code outside the set 1,2,3,5,
yet the code rejects it with the invalid-data error result instead of the
claimed no-op success. -/
theorem unknown_event_noop_counterexample :
    (processSignatureEvent
      (some { RequestId := some "req-8", EventId := some 0 })
      (fun _ => some { id := "A8", status := some "created", signatories_status := [] })
      { now := "N", save := .err "e", upload := .noUrl,
        updateError := none }).result.success = false ∧
    (processSignatureEvent
      (some { RequestId := some "req-8", EventId := some 0 })
      (fun _ => some { id := "A8", status := some "created", signatories_status := [] })
      { now := "N", save := .err "e", upload := .noUrl,
        updateError := none }).result.error = some "Invalid webhook data" := by
  constructor <;> rfl

/-- C8 amended: for every nonzero numeric EventId outside the set 1,2,3,5,
a located agreement gets the no-op success result and no agreement update is
issued. -/
theorem unknown_event_noop (w : WebhookData) (ag : Agreement)
    (lookup : String → Option Agreement) (env : ProcEnv) (n : Int)
    (hreq : truthy w.RequestId = true) (he : w.EventId = some n)
    (h0 : n ≠ 0) (h1 : n ≠ 1) (h2 : n ≠ 2) (h3 : n ≠ 3) (h5 : n ≠ 5)
    (hfind : lookup (w.RequestId.getD "") = some ag) :
    processSignatureEvent (some w) lookup env =
      ⟨{ success := true, recordingSuccess := some true,
         agreementProcessed := some false,
         message := some "Webhook received but event type not recognized for processing" },
        none, []⟩ := by
  simp [processSignatureEvent, hreq, he, truthyInt, h0, hfind, processFound,
    h1, h2, h3, h5]

/-- Witness for the amended C8 at the concrete code 4. -/
theorem unknown_event_noop_witness :
    processSignatureEvent
      (some { RequestId := some "req-8", EventId := some 4 })
      (fun _ => some { id := "A8", status := some "created", signatories_status := [] })
      { now := "N", save := .err "e", upload := .noUrl, updateError := none } =
      ⟨{ success := true, recordingSuccess := some true,
         agreementProcessed := some false,
         message := some "Webhook received but event type not recognized for processing" },
        none, []⟩ :=
  unknown_event_noop
    { RequestId := some "req-8", EventId := some 4 }
    { id := "A8", status := some "created", signatories_status := [] }
    (fun _ => some { id := "A8", status := some "created", signatories_status := [] })
    { now := "N", save := .err "e", upload := .noUrl, updateError := none }
    4 (by decide) rfl (by decide) (by decide) (by decide) (by decide) (by decide) rfl

/-- Concrete active agreement for C1. -/
def agC1 : Agreement := { id := "A1", status := some "active", signatories_status := [] }

/-- Concrete signer-completed payload for C1. -/
def wC1 : WebhookData :=
  { RequestId := some "req-1", EventId := some 2, UserName := some "Jane Doe",
    Email := some "jane@x.com", EventTime := some "2024-05-01T10:00:00Z" }

/-- Concrete environment for C1. -/
def envC1 : ProcEnv :=
  { now := "2024-05-01T10:00:01Z", save := .err "e", upload := .noUrl,
    updateError := none }

/-- C1 counterexample: an agreement whose status is already active receives
a signer-completed event, and the update written by processSignatureEvent
sets the status back to pending activation. -/
theorem active_regression_counterexample :
    agC1.status = some "active" ∧
    (processSignatureEvent (some wC1) (fun _ => some agC1) envC1).updateAttempt.map
      (fun p => p.2.status) = some (some "pending_activation") := by
  constructor
  · rfl
  · rfl

/-- C1 amended: processSignatureEvent writes status pending_activation for
event codes 1 and 2 unconditionally, so an agreement that is already active
is regressed to pending activation by any subsequent request-received or
signer-completed event. -/
theorem active_regression_on_events (w : WebhookData) (ag : Agreement)
    (lookup : String → Option Agreement) (env : ProcEnv)
    (hreq : truthy w.RequestId = true)
    (hfind : lookup (w.RequestId.getD "") = some ag)
    (hactive : ag.status = some "active") :
    (w.EventId = some 1 →
      (processSignatureEvent (some w) lookup env).updateAttempt.map
        (fun p => p.2.status) = some (some "pending_activation")) ∧
    (w.EventId = some 2 → (truthy w.UserName = true ∨ w.Email ≠ none) →
      (processSignatureEvent (some w) lookup env).updateAttempt.map
        (fun p => p.2.status) = some (some "pending_activation")) := by
  constructor
  · intro he
    rcases h' : env.updateError with _ | msg <;>
      simp [processSignatureEvent, hreq, he, truthyInt, hfind, processFound,
        finishUpdate, h']
  · intro he hname
    have hguard : (!truthy w.UserName && decide (w.Email = none)) = false := by
      rcases hname with h | h
      · simp [h]
      · simp [h]
    rcases h' : env.updateError with _ | msg <;>
      simp [processSignatureEvent, hreq, he, truthyInt, hfind, processFound,
        finishUpdate, h', hguard]

/-- Witness for the amended C1 at the concrete active agreement. -/
theorem active_regression_on_events_witness :
    (processSignatureEvent (some wC1) (fun _ => some agC1) envC1).updateAttempt.map
      (fun p => p.2.status) = some (some "pending_activation") :=
  (active_regression_on_events wC1 agC1 (fun _ => some agC1) envC1
    (by decide) rfl rfl).2 rfl (Or.inl (by decide))

/-- The update attempt of finishUpdate carries the computed update data
whether or not the store write succeeds. -/
lemma finishUpdate_updateAttempt (ag : Agreement) (ud : UpdateData)
    (env : ProcEnv) (wn : List String) :
    (finishUpdate ag ud env wn).updateAttempt = some (ag.id, ud) := by
  cases h : env.updateError <;> simp [finishUpdate, h]

/-- For a valid payload and a located agreement, processing dispatches to
the event switch. -/
lemma processSignatureEvent_found (w : WebhookData) (ag : Agreement)
    (lookup : String → Option Agreement) (env : ProcEnv) (n : Int)
    (hreq : truthy w.RequestId = true) (he : w.EventId = some n) (h0 : n ≠ 0)
    (hfind : lookup (w.RequestId.getD "") = some ag) :
    processSignatureEvent (some w) lookup env = processFound w ag n env := by
  simp [processSignatureEvent, hreq, he, truthyInt, h0, hfind]

/-- The base update computed for a request-completed event before any
document handling. -/
def requestCompletedBase (now : String) : UpdateData :=
  { updatedat := now, status := some "active",
    signature_status := some "signing_complete",
    signature_completed_at := some now, signeddate := some now }

/-- C2: for a located agreement, the update computed by processSignatureEvent
follows the transition table keyed on the numeric EventId: code 1 yields
pending_activation with send_for_signature and the sent timestamp; code 2
yields pending_activation with the signed_by label of the derived signer
name and merges the signer into the roster as completed with signedAt taken
from the event time; code 3 yields active with signing_complete and, when a
document is attached and stored, the artifact URL; code 5 yields rejected
with the rejected label. -/
theorem transition_table_on_event_id (w : WebhookData) (ag : Agreement)
    (lookup : String → Option Agreement) (env : ProcEnv)
    (hreq : truthy w.RequestId = true)
    (hfind : lookup (w.RequestId.getD "") = some ag) :
    (w.EventId = some 1 →
      (processSignatureEvent (some w) lookup env).updateAttempt =
        some (ag.id,
          { updatedat := env.now, status := some "pending_activation",
            signature_status := some "send_for_signature",
            signature_sent_at := some env.now })) ∧
    (w.EventId = some 2 → (truthy w.UserName = true ∨ w.Email ≠ none) →
      (processSignatureEvent (some w) lookup env).updateAttempt =
        some (ag.id,
          { updatedat := env.now, status := some "pending_activation",
            signature_status :=
              some ("signed_by_" ++ underscoreName (deriveSignatoryName w)),
            signatories_status :=
              some (upsertSignatory ag.signatories_status
                (newSignatoryOf w env.now)) }) ∧
      (newSignatoryOf w env.now).status = "completed" ∧
      (truthy w.EventTime = true →
        (newSignatoryOf w env.now).signedAt = w.EventTime.getD "")) ∧
    (w.EventId = some 3 →
      ∃ ud, (processSignatureEvent (some w) lookup env).updateAttempt =
          some (ag.id, ud) ∧
        ud.status = some "active" ∧
        ud.signature_status = some "signing_complete" ∧
        ud.signature_completed_at = some env.now ∧
        (∀ d ds u p, w.Documents = some (d :: ds) → env.save = .ok u →
          env.upload = .ok p →
          ud.signed_document_url = some p ∧ ud.pdfurl = some p ∧
            ud.signatureurl = some p)) ∧
    (w.EventId = some 5 →
      (processSignatureEvent (some w) lookup env).updateAttempt =
        some (ag.id,
          { updatedat := env.now, status := some "rejected",
            signature_status := some "rejected" })) := by
  refine ⟨?_, ?_, ?_, ?_⟩
  · intro he
    rw [processSignatureEvent_found w ag lookup env 1 hreq he (by decide) hfind]
    simp only [processFound, if_pos rfl]
    exact finishUpdate_updateAttempt ag _ env _
  · intro he hname
    rw [processSignatureEvent_found w ag lookup env 2 hreq he (by decide) hfind]
    have hguard : (!truthy w.UserName && decide (w.Email = none)) = false := by
      rcases hname with h | h
      · simp [h]
      · simp [h]
    refine ⟨?_, rfl, fun ht => by simp [newSignatoryOf, ht]⟩
    simp only [processFound, hguard]
    norm_num
    exact finishUpdate_updateAttempt ag _ env _
  · intro he
    rw [processSignatureEvent_found w ag lookup env 3 hreq he (by decide) hfind]
    rcases hd : w.Documents with _ | ⟨_ | ⟨d0, ds0⟩⟩
    · refine ⟨requestCompletedBase env.now, ?_, rfl, rfl, rfl,
        fun d ds u p hdd hs2 hu2 => ?_⟩
      · simp only [processFound, hd]
        norm_num
        exact finishUpdate_updateAttempt ag _ env _
      · exact absurd hdd (by simp)
    · refine ⟨requestCompletedBase env.now, ?_, rfl, rfl, rfl,
        fun d ds u p hdd hs2 hu2 => ?_⟩
      · simp only [processFound, hd]
        norm_num
        exact finishUpdate_updateAttempt ag _ env _
      · exact absurd hdd (by simp)
    · rcases hs : env.save with u | m
      · rcases hu : env.upload with p | m | _
        · refine ⟨{ requestCompletedBase env.now with
              signed_document_url := some p, pdfurl := some p,
              signatureurl := some p }, ?_, rfl, rfl, rfl,
            fun d ds u2 p2 hdd hs2 hu2 => ?_⟩
          · simp only [processFound, hd, hs, hu]
            norm_num
            exact finishUpdate_updateAttempt ag _ env _
          · cases hs2; cases hu2
            exact ⟨rfl, rfl, rfl⟩
        · refine ⟨{ requestCompletedBase env.now with
              signed_document_url := some u }, ?_, rfl, rfl, rfl,
            fun d ds u2 p2 hdd hs2 hu2 => ?_⟩
          · simp only [processFound, hd, hs, hu]
            norm_num
            exact finishUpdate_updateAttempt ag _ env _
          · exact absurd hu2 (by simp)
        · refine ⟨{ requestCompletedBase env.now with
              signed_document_url := some u }, ?_, rfl, rfl, rfl,
            fun d ds u2 p2 hdd hs2 hu2 => ?_⟩
          · simp only [processFound, hd, hs, hu]
            norm_num
            exact finishUpdate_updateAttempt ag _ env _
          · exact absurd hu2 (by simp)
      · refine ⟨requestCompletedBase env.now, ?_, rfl, rfl, rfl,
          fun d ds u2 p2 hdd hs2 hu2 => ?_⟩
        · simp only [processFound, hd, hs]
          norm_num
          exact finishUpdate_updateAttempt ag _ env _
        · exact absurd hs2 (by simp)
  · intro he
    rw [processSignatureEvent_found w ag lookup env 5 hreq he (by decide) hfind]
    simp only [processFound]
    norm_num
    exact finishUpdate_updateAttempt ag _ env _

/-- Concrete payload for the C2 witness. -/
def wC2 : WebhookData :=
  { RequestId := some "req-2", EventId := some 2, UserName := some "Jane Doe",
    Email := some "jane@x.com", EventTime := some "2024-05-01T10:00:00Z" }

/-- Concrete agreement for the C2 witness. -/
def agC2 : Agreement :=
  { id := "A2", status := some "pending_activation", signatories_status := [] }

/-- Concrete environment for the C2 witness. -/
def envC2 : ProcEnv :=
  { now := "N2", save := .err "e", upload := .noUrl, updateError := none }

/-- Witness for C2 at a concrete signer-completed event. -/
theorem transition_table_on_event_id_witness :
    (processSignatureEvent (some wC2) (fun _ => some agC2) envC2).updateAttempt =
      some (agC2.id,
        { updatedat := envC2.now, status := some "pending_activation",
          signature_status :=
            some ("signed_by_" ++ underscoreName (deriveSignatoryName wC2)),
          signatories_status :=
            some (upsertSignatory agC2.signatories_status
              (newSignatoryOf wC2 envC2.now)) }) :=
  ((transition_table_on_event_id wC2 agC2 (fun _ => some agC2) envC2
    (by decide) rfl).2.1 rfl (Or.inl (by decide))).1

/-- C9: for a request-completed event carrying a document, a failure in local
saving or in the storage upload does not prevent the lifecycle update: the
status is still set to active with signing_complete, the overall result is a
success without error, and the artifact failure shows up only as a logged
warning. -/
theorem artifact_failure_isolated (w : WebhookData) (ag : Agreement)
    (lookup : String → Option Agreement) (env : ProcEnv)
    (hreq : truthy w.RequestId = true) (he : w.EventId = some 3)
    (hfind : lookup (w.RequestId.getD "") = some ag)
    (hdocs : ∃ d ds, w.Documents = some (d :: ds))
    (hfail : (∃ m, env.save = SaveOutcome.err m) ∨
      (∃ u m, env.save = SaveOutcome.ok u ∧ env.upload = UploadOutcome.failed m) ∨
      (∃ u, env.save = SaveOutcome.ok u ∧ env.upload = UploadOutcome.noUrl))
    (hupd : env.updateError = none) :
    (processSignatureEvent (some w) lookup env).result.success = true ∧
    (processSignatureEvent (some w) lookup env).result.agreementProcessed =
      some true ∧
    (processSignatureEvent (some w) lookup env).result.error = none ∧
    (∃ ud, (processSignatureEvent (some w) lookup env).updateAttempt =
        some (ag.id, ud) ∧
      ud.status = some "active" ∧
      ud.signature_status = some "signing_complete") ∧
    (processSignatureEvent (some w) lookup env).warnings ≠ [] := by
  obtain ⟨d, ds, hd⟩ := hdocs
  rw [processSignatureEvent_found w ag lookup env 3 hreq he (by decide) hfind]
  rcases hfail with ⟨m, hs⟩ | ⟨u, m, hs, hu⟩ | ⟨u, hs, hu⟩
  · simp only [processFound, hd, hs]
    norm_num
    simp [finishUpdate, hupd]
  · simp only [processFound, hd, hs, hu]
    norm_num
    simp [finishUpdate, hupd]
  · simp only [processFound, hd, hs, hu]
    norm_num
    simp [finishUpdate, hupd]

/-- Witness for C9 at a concrete request-completed event with a failing
upload. -/
theorem artifact_failure_isolated_witness :
    (processSignatureEvent
      (some { RequestId := some "req-9b", EventId := some 3,
              Documents := some [{ DocumentContent := "JVBERi0x",
                                   DocumentName := some "signed.pdf" }] })
      (fun _ => some { id := "A9", status := some "pending_activation",
                       signatories_status := [] })
      { now := "N9", save := .ok "file:///tmp/signed.pdf",
        upload := .failed "bucket down", updateError := none }).result.success =
      true :=
  (artifact_failure_isolated
    { RequestId := some "req-9b", EventId := some 3,
      Documents := some [{ DocumentContent := "JVBERi0x",
                           DocumentName := some "signed.pdf" }] }
    { id := "A9", status := some "pending_activation", signatories_status := [] }
    (fun _ => some { id := "A9", status := some "pending_activation",
                     signatories_status := [] })
    { now := "N9", save := .ok "file:///tmp/signed.pdf",
      upload := .failed "bucket down", updateError := none }
    (by decide) rfl rfl ⟨_, _, rfl⟩
    (Or.inr (Or.inl ⟨"file:///tmp/signed.pdf", "bucket down", rfl, rfl⟩))
    rfl).1

/-- C4: when the primary direct write fails and the fallback client write
also fails, insertWebhookEvent still returns success true with a synthesized
virtual record id and a warning; and for every present payload the function
returns a success value, never a thrown failure. -/
theorem degraded_insert_returns_virtual_success (ed : WebhookData)
    (env : InsertEnv)
    (hp : ∃ m, env.primary = PrimaryOutcome.httpError m)
    (hf : ∃ m, env.fallback = FallbackOutcome.err m) :
    insertWebhookEvent (some ed) env =
      { success := true,
        data := some
          { id := "local-" ++ env.nowMs,
            request_id := insertValidRequestId ed.RequestId env.freshUUID,
            virtual := true },
        warning := some "Created virtual record due to database issues" } ∧
    (∀ (ed2 : WebhookData) (env2 : InsertEnv),
      (insertWebhookEvent (some ed2) env2).success = true) := by
  obtain ⟨m, hm⟩ := hp
  obtain ⟨m2, hm2⟩ := hf
  constructor
  · simp [insertWebhookEvent, hm, hm2]
  · intro ed2 env2
    rcases h1 : env2.primary with r | m3 | m3 <;>
      rcases h2 : env2.fallback with r2 | m4 <;>
      simp [insertWebhookEvent, h1, h2]

/-- Witness for C4 at a concrete payload with both writes failing. -/
theorem degraded_insert_returns_virtual_success_witness :
    insertWebhookEvent
      (some { RequestId := some "not-a-uuid", EventId := some 2 })
      { nowMs := "1714550400000",
        freshUUID := "f47ac10b-58cc-4372-a567-0e02b2c3d479",
        primary := .httpError "500", fallback := .err "schema cache" } =
      { success := true,
        data := some
          { id := "local-1714550400000",
            request_id := some "f47ac10b-58cc-4372-a567-0e02b2c3d479",
            virtual := true },
        warning := some "Created virtual record due to database issues" } := by
  have h := (degraded_insert_returns_virtual_success
    { RequestId := some "not-a-uuid", EventId := some 2 }
    { nowMs := "1714550400000",
      freshUUID := "f47ac10b-58cc-4372-a567-0e02b2c3d479",
      primary := .httpError "500", fallback := .err "schema cache" }
    ⟨"500", rfl⟩ ⟨"schema cache", rfl⟩).1
  rw [h]
  congr 1

/-- Concrete request-completed payload with one document for C6. -/
def wC6 : WebhookData :=
  { RequestId := some "req-6", EventId := some 3,
    Documents := some [{ DocumentContent := "JVBERi0x",
                         DocumentName := some "signed.pdf" }] }

/-- Concrete agreement for C6. -/
def agC6 : Agreement :=
  { id := "A6", status := some "pending_activation", signatories_status := [] }

/-- Concrete environment for C6 in which the upload succeeds. -/
def envC6 : ProcEnv :=
  { now := "N6", save := .ok "file:///tmp/signed.pdf",
    upload := .ok "https://store.example/files/signed.pdf",
    updateError := none }

/-- C6 counterexample: after processing a request-completed event carrying
one document, the agreement update exposes the storage locator, but the
webhook event row is only patched with the processed flag: its update body
carries no document locator at all, so the two records do not expose the
same artifact locator. -/
theorem artifact_linkage_counterexample :
    (processSignatureEvent (some wC6) (fun _ => some agC6) envC6).updateAttempt.map
      (fun p => p.2.signed_document_url) =
      some (some "https://store.example/files/signed.pdf") ∧
    (markWebhookEventProcessed (some "EV6") "N6" MarkOutcome.httpOk).2.map
      (fun p => p.document_url) = some none ∧
    (markWebhookEventProcessed (some "EV6") "N6" MarkOutcome.httpOk).2.map
      (fun p => p.document_path) = some none := by
  refine ⟨rfl, rfl, rfl⟩

/-- C6 amended: the agreement update receives the storage locator in all
three artifact URL columns, while the originating webhook event row is only
marked processed (processed flag and updatedat, no document linkage); the
write-back of one shared locator to both records exists only in the
saveDocument pipeline of documentStorageService, whose two patches do carry
the same public URL. -/
theorem artifact_linkage_agreement_only (w : WebhookData) (ag : Agreement)
    (lookup : String → Option Agreement) (env : ProcEnv)
    (p : String)
    (hreq : truthy w.RequestId = true) (he : w.EventId = some 3)
    (hfind : lookup (w.RequestId.getD "") = some ag)
    (hdocs : ∃ d ds, w.Documents = some (d :: ds))
    (hsave : ∃ u, env.save = SaveOutcome.ok u)
    (hup : env.upload = UploadOutcome.ok p) :
    (∃ ud, (processSignatureEvent (some w) lookup env).updateAttempt =
        some (ag.id, ud) ∧
      ud.signed_document_url = some p ∧ ud.pdfurl = some p ∧
      ud.signatureurl = some p) ∧
    (∀ (evId : Option String) (now : String) (menv : MarkOutcome),
      truthy evId = true →
      (markWebhookEventProcessed evId now menv).2 =
        some { processed := some true, updatedat := some now }) ∧
    (∀ (pu sp now : String),
      (saveDocumentWebhookPatch pu sp now).document_url = some pu ∧
      (saveDocumentAgreementPatch pu now).signed_document_url = some pu) := by
  obtain ⟨d, ds, hd⟩ := hdocs
  obtain ⟨u, hs⟩ := hsave
  refine ⟨?_, ?_, fun pu sp now => ⟨rfl, rfl⟩⟩
  · rw [processSignatureEvent_found w ag lookup env 3 hreq he (by decide) hfind]
    refine ⟨{ requestCompletedBase env.now with
        signed_document_url := some p, pdfurl := some p,
        signatureurl := some p }, ?_, rfl, rfl, rfl⟩
    simp only [processFound, hd, hs, hup]
    norm_num
    exact finishUpdate_updateAttempt ag _ env _
  · intro evId now menv htr
    cases menv <;> simp [markWebhookEventProcessed, htr]

/-- Witness for the amended C6 at the concrete completed event. -/
theorem artifact_linkage_agreement_only_witness :
    ∃ ud, (processSignatureEvent (some wC6) (fun _ => some agC6) envC6).updateAttempt =
        some (agC6.id, ud) ∧
      ud.signed_document_url = some "https://store.example/files/signed.pdf" ∧
      ud.pdfurl = some "https://store.example/files/signed.pdf" ∧
      ud.signatureurl = some "https://store.example/files/signed.pdf" :=
  (artifact_linkage_agreement_only wC6 agC6 (fun _ => some agC6) envC6
    "https://store.example/files/signed.pdf"
    (by decide) rfl rfl ⟨_, _, rfl⟩ ⟨"file:///tmp/signed.pdf", rfl⟩ rfl).1

/-- Consuming n hex characters splits off a hex block of length n. -/
lemma hexTake_eq (n : Nat) : ∀ l r : List Char, hexTake n l = some r →
    ∃ a, l = a ++ r ∧ a.length = n ∧ ∀ c ∈ a, isHexChar c = true := by
  induction n with
  | zero =>
    intro l r h
    refine ⟨[], ?_, rfl, by simp⟩
    simpa [hexTake] using h
  | succ n ih =>
    intro l r h
    cases l with
    | nil => simp [hexTake] at h
    | cons c cs =>
      rcases hc : isHexChar c with _ | _
      · simp [hexTake, hc] at h
      · simp only [hexTake, hc, if_true] at h
        obtain ⟨a, ha, hlen, hhex⟩ := ih cs r h
        refine ⟨c :: a, by simp [ha], by simp [hlen], ?_⟩
        intro x hx
        rcases List.mem_cons.mp hx with rfl | hx2
        · exact hc
        · exact hhex x hx2

/-- Consuming a dash splits off exactly one dash. -/
lemma dashTake_eq {l r : List Char} (h : dashTake l = some r) : l = '-' :: r := by
  cases l with
  | nil => simp [dashTake] at h
  | cons c cs =>
    by_cases hc : c = '-'
    · subst hc
      simp [dashTake] at h
      simp [h]
    · simp [dashTake, hc] at h

/-- The version character is a hex digit. -/
lemma versionTake_eq {l r : List Char} (h : versionTake l = some r) :
    ∃ c, l = c :: r ∧ isHexChar c = true := by
  cases l with
  | nil => simp [versionTake] at h
  | cons c cs =>
    by_cases hc : '1' ≤ c ∧ c ≤ '5'
    · simp only [versionTake, if_pos hc, Option.some_inj] at h
      subst h
      refine ⟨c, rfl, ?_⟩
      have h0 : '0' ≤ c := le_trans (by decide) hc.1
      have h9 : c ≤ '9' := le_trans hc.2 (by decide)
      simp only [isHexChar, Bool.or_eq_true, Bool.and_eq_true,
        decide_eq_true_eq]
      refine Or.inl (Or.inl ⟨h0, h9⟩)
    · simp [versionTake, hc] at h

/-- The variant character is a hex digit. -/
lemma variantTake_eq {l r : List Char} (h : variantTake l = some r) :
    ∃ c, l = c :: r ∧ isHexChar c = true := by
  cases l with
  | nil => simp [variantTake] at h
  | cons c cs =>
    by_cases hc : c = '8' ∨ c = '9' ∨ c = 'a' ∨ c = 'b' ∨ c = 'A' ∨ c = 'B'
    · simp only [variantTake, if_pos hc, Option.some_inj] at h
      subst h
      refine ⟨c, rfl, ?_⟩
      rcases hc with rfl | rfl | rfl | rfl | rfl | rfl <;> decide
    · simp [variantTake, hc] at h

/-- A string passing the UUID test splits into five hex groups of lengths
8, 4, 4, 4 and 12 separated by single dashes. -/
lemma isUUID_decomp {s : String} (h : isUUID s = true) :
    ∃ a b c d e : List Char,
      s.data = a ++ '-' :: (b ++ '-' :: (c ++ '-' :: (d ++ '-' :: e))) ∧
      a.length = 8 ∧ b.length = 4 ∧ c.length = 4 ∧ d.length = 4 ∧
      e.length = 12 ∧
      (∀ x ∈ a, isHexChar x = true) ∧ (∀ x ∈ b, isHexChar x = true) ∧
      (∀ x ∈ c, isHexChar x = true) ∧ (∀ x ∈ d, isHexChar x = true) ∧
      (∀ x ∈ e, isHexChar x = true) := by
  have h' : uuidRest s.data = some [] := by simpa [isUUID] using h
  unfold uuidRest at h'
  rcases Option.bind_eq_some.mp h' with ⟨rA, hA, hTakeE⟩
  rcases Option.bind_eq_some.mp hA with ⟨rB, hB, hDash4⟩
  rcases Option.bind_eq_some.mp hB with ⟨rC, hC, hHexD3⟩
  rcases Option.bind_eq_some.mp hC with ⟨rD, hD, hVar⟩
  rcases Option.bind_eq_some.mp hD with ⟨rE, hE, hDash3⟩
  rcases Option.bind_eq_some.mp hE with ⟨rF, hF, hHexC3⟩
  rcases Option.bind_eq_some.mp hF with ⟨rG, hG, hVer⟩
  rcases Option.bind_eq_some.mp hG with ⟨rH, hH, hDash2⟩
  rcases Option.bind_eq_some.mp hH with ⟨rI, hI, hHexB⟩
  rcases Option.bind_eq_some.mp hI with ⟨rJ, hJ, hDash1⟩
  obtain ⟨a, haeq, halen, hahex⟩ := hexTake_eq 8 _ _ hJ
  have hrJ := dashTake_eq hDash1
  obtain ⟨b, hbeq, hblen, hbhex⟩ := hexTake_eq 4 _ _ hHexB
  have hrH := dashTake_eq hDash2
  obtain ⟨v, hveq, hvhex⟩ := versionTake_eq hVer
  obtain ⟨c3, hceq, hclen, hchex⟩ := hexTake_eq 3 _ _ hHexC3
  have hrE := dashTake_eq hDash3
  obtain ⟨wv, hweq, hwhex⟩ := variantTake_eq hVar
  obtain ⟨d3, hdeq, hdlen, hdhex⟩ := hexTake_eq 3 _ _ hHexD3
  have hrB := dashTake_eq hDash4
  obtain ⟨e, heeq, helen, hehex⟩ := hexTake_eq 12 _ _ hTakeE
  refine ⟨a, b, v :: c3, wv :: d3, e, ?_, halen, hblen, ?_, ?_, helen,
    hahex, hbhex, ?_, ?_, hehex⟩
  · rw [haeq, hrJ, hbeq, hrH, hveq, hceq, hrE, hweq, hdeq, hrB, heeq]
    simp [List.cons_append, List.append_assoc]
  · simp [hclen]
  · simp [hdlen]
  · intro x hx
    rcases List.mem_cons.mp hx with rfl | hx2
    · exact hvhex
    · exact hchex x hx2
  · intro x hx
    rcases List.mem_cons.mp hx with rfl | hx2
    · exact hwhex
    · exact hdhex x hx2

/-- Re-segmenting five concatenated groups of lengths 8, 4, 4, 4 and 12
reinserts the dashes in the canonical positions. -/
lemma formatUUID_rejoin (a b c d e : List Char) (ha : a.length = 8)
    (hb : b.length = 4) (hc : c.length = 4) (hd : d.length = 4)
    (he : e.length = 12) :
    formatUUID (a ++ (b ++ (c ++ (d ++ e)))) =
      a ++ '-' :: (b ++ '-' :: (c ++ '-' :: (d ++ '-' :: e))) := by
  have t8 : (a ++ (b ++ (c ++ (d ++ e)))).take 8 = a := List.take_left' ha
  have d8 : (a ++ (b ++ (c ++ (d ++ e)))).drop 8 = b ++ (c ++ (d ++ e)) :=
    List.drop_left' ha
  have hab : a ++ (b ++ (c ++ (d ++ e))) = (a ++ b) ++ (c ++ (d ++ e)) := by
    simp [List.append_assoc]
  have habc : a ++ (b ++ (c ++ (d ++ e))) = ((a ++ b) ++ c) ++ (d ++ e) := by
    simp [List.append_assoc]
  have habcd : a ++ (b ++ (c ++ (d ++ e))) = (((a ++ b) ++ c) ++ d) ++ e := by
    simp [List.append_assoc]
  have d12 : (a ++ (b ++ (c ++ (d ++ e)))).drop 12 = c ++ (d ++ e) := by
    rw [hab]; exact List.drop_left' (by simp [ha, hb])
  have d16 : (a ++ (b ++ (c ++ (d ++ e)))).drop 16 = d ++ e := by
    rw [habc]; exact List.drop_left' (by simp [ha, hb, hc])
  have d20 : (a ++ (b ++ (c ++ (d ++ e)))).drop 20 = e := by
    rw [habcd]; exact List.drop_left' (by simp [ha, hb, hc, hd])
  have t4b : (b ++ (c ++ (d ++ e))).take 4 = b := List.take_left' hb
  have t4c : (c ++ (d ++ e)).take 4 = c := List.take_left' hc
  have t4d : (d ++ e).take 4 = d := List.take_left' hd
  have t12e : e.take 12 = e := by rw [← he]; exact List.take_length e
  unfold formatUUID
  rw [t8, d8, t4b, d12, t4c, d16, t4d, d20, t12e]
  simp [List.append_assoc]

/-- For a canonical UUID, stripping the dashes and re-segmenting restores
the original string, and the stripped form has exactly 32 characters. -/
lemma formatUUID_filter_of_uuid (u : String) (h : isUUID u = true) :
    formatUUID (u.data.filter isHexChar) = u.data ∧
    (u.data.filter isHexChar).length = 32 := by
  obtain ⟨a, b, c, d, e, heq, ha, hb, hc, hd, he, hxa, hxb, hxc, hxd, hxe⟩ :=
    isUUID_decomp h
  have hdash : isHexChar '-' = false := by decide
  have hfil : u.data.filter isHexChar = a ++ (b ++ (c ++ (d ++ e))) := by
    rw [heq]
    simp [List.filter_append, hdash, List.filter_eq_self.mpr hxa,
      List.filter_eq_self.mpr hxb, List.filter_eq_self.mpr hxc,
      List.filter_eq_self.mpr hxd, List.filter_eq_self.mpr hxe]
  constructor
  · rw [hfil, formatUUID_rejoin a b c d e ha hb hc hd he, heq]
  · rw [hfil]
    simp [ha, hb, hc, hd, he]

/-- C7 amended: a reference that fails the UUID test but whose non-hex
characters, once stripped, leave exactly the 32 hex characters of a
canonical UUID is re-segmented by normalizeReference into exactly that
canonical UUID, so it locates the same aggregate as the canonical form;
a reference whose stripped form does not have 32 characters is kept
unchanged by handleEviaSignWebhook, not replaced; a freshly generated
reference is substituted only by the insertWebhookEvent path, which
replaces every reference failing the UUID test. -/
theorem reference_normalization_resegments (s u : String)
    (hu : isUUID u = true) (hs : isUUID s = false)
    (hsame : stripNonHex s = stripNonHex u) :
    normalizeReference (some s) = some u ∧
    (∀ r : String, isUUID r = false → (r.data.filter isHexChar).length ≠ 32 →
      normalizeReference (some r) = some r) ∧
    (∀ r fresh : String, isUUID r = false →
      insertValidRequestId (some r) fresh = some fresh) := by
  refine ⟨?_, ?_, ?_⟩
  · have hdata : s.data.filter isHexChar = u.data.filter isHexChar := by
      have := congrArg String.data hsame
      simpa [stripNonHex] using this
    obtain ⟨hfmt, hlen⟩ := formatUUID_filter_of_uuid u hu
    have hlen_s : (s.data.filter isHexChar).length = 32 := by
      rw [hdata]; exact hlen
    simp only [normalizeReference, hs, Bool.false_eq_true, if_false, hlen_s,
      if_true, hdata, hfmt]
    cases u
    simp [hlen]
  · intro r hr hlen
    simp [normalizeReference, hr, hlen]
  · intro r fresh hr
    simp [insertValidRequestId, hr]

/-- Witness for C7 at a concrete dash-free reference. -/
theorem reference_normalization_resegments_witness :
    normalizeReference (some "123e4567e89b12d3a456426614174000") =
      some "123e4567-e89b-12d3-a456-426614174000" :=
  (reference_normalization_resegments
    "123e4567e89b12d3a456426614174000"
    "123e4567-e89b-12d3-a456-426614174000"
    (by decide) (by decide) (by decide)).1

/-- C7 counterexample: a reference that cannot be normalized is kept
unchanged by handleEviaSignWebhook rather than replaced by a fresh UUID,
while the insertWebhookEvent path replaces even a normalizable reference
(trailing dash, 32 hex characters) with a freshly generated UUID instead of
re-segmenting it. -/
theorem reference_normalization_counterexample :
    normalizeReference (some "xyz") = some "xyz" ∧
    normalizeReference (some "123e4567-e89b-12d3-a456-426614174000-") =
      some "123e4567-e89b-12d3-a456-426614174000" ∧
    insertValidRequestId (some "123e4567-e89b-12d3-a456-426614174000-")
      "f47ac10b-58cc-4372-a567-0e02b2c3d479" =
      some "f47ac10b-58cc-4372-a567-0e02b2c3d479" ∧
    ("f47ac10b-58cc-4372-a567-0e02b2c3d479" : String) ≠
      "123e4567-e89b-12d3-a456-426614174000" := by
  refine ⟨?_, ?_, ?_, ?_⟩ <;> decide

end KhWebhook
